import Mathlib

/-!
Verification development for the HUD renderer
(`src/TeslaCamPlayer/src/TeslaCamPlayer.BlazorHosted/Server/lib/hud_renderer.py`).

The Python module is shallowly embedded here.  Python floats are modelled by
`PyFloat` (an exact rational together with the special values `inf`, `-inf`
and `nan`); dynamically typed telemetry values are modelled by `Value`;
telemetry records (Python dicts) are association lists `List (String × Value)`.
Fallible Python operations (e.g. `float(x)` raising `TypeError`/`ValueError`,
`int(x)` on a non-finite float) return `Option`.
The frame-to-frame smoother state (`HudRenderState`) is modelled over the real
numbers because `math.exp` and `math.cos` are transcendental.
-/

/-- Model of a CPython float value: an exact rational for the finite case plus
the three special values.  Exact rationals stand in for IEEE doubles; every
concrete computation in this development stays far from any rounding boundary
of the binary representation. -/
inductive PyFloat where
  | finite (q : ℚ)
  | inf
  | neginf
  | nan
deriving DecidableEq, Repr

/-- Model of `math.isnan`. -/
def PyFloat.isnan : PyFloat → Bool
  | PyFloat.nan => true
  | _ => false

/-- Model of `math.isfinite`. -/
def PyFloat.isFinite : PyFloat → Bool
  | PyFloat.finite _ => true
  | _ => false

/-- Unary negation on a modelled float. -/
def PyFloat.neg : PyFloat → PyFloat
  | PyFloat.finite q => PyFloat.finite (-q)
  | PyFloat.inf => PyFloat.neginf
  | PyFloat.neginf => PyFloat.inf
  | PyFloat.nan => PyFloat.nan

/-- A dynamically typed telemetry field value (number, boolean, string, or
JSON null), as found in one SEI telemetry record. -/
inductive Value where
  | vInt (n : ℤ)
  | vFloat (f : PyFloat)
  | vBool (b : Bool)
  | vStr (s : String)
  | vNone
deriving DecidableEq, Repr

/-- A telemetry record: a Python dict from field name to value, modelled as an
association list (first binding wins, mirroring unique dict keys). -/
def TelemetryRecord : Type := List (String × Value)

/-- Digit-list to natural number accumulator (helper for the float-literal
parser). -/
def digitsToNatAux : List Char → ℕ → ℕ
  | [], acc => acc
  | c :: cs, acc => digitsToNatAux cs (acc * 10 + (c.toNat - 48))

/-- Split a character list at the first dot; returns the part before the dot
and, when a dot is present, the part after it. -/
def splitAtDot : List Char → List Char × Option (List Char)
  | [] => ([], none)
  | c :: cs =>
      if c = ('.') then ([], some cs)
      else
        let r := splitAtDot cs
        (c :: r.1, r.2)

/-- Model of CPython's `float()` applied to a (sign-stripped, lowercased)
decimal literal body: `"12"`, `"12.5"`, `"12."`, `".5"`.  Exponent and
underscore forms accepted by CPython are outside this model; no claim in this
development depends on them. -/
def parseDecimal (cs : List Char) : Option ℚ :=
  match splitAtDot cs with
  | (a, none) =>
      if a ≠ [] ∧ a.all Char.isDigit then some ((digitsToNatAux a 0 : ℕ) : ℚ) else none
  | (a, some b) =>
      if (a ≠ [] ∨ b ≠ []) ∧ a.all Char.isDigit ∧ b.all Char.isDigit ∧ ¬ b.contains ('.') then
        some (((digitsToNatAux a 0 : ℕ) : ℚ) + ((digitsToNatAux b 0 : ℕ) : ℚ) / (10 : ℚ) ^ b.length)
      else none

/-- Parse a lowercased, sign-stripped float-literal body, including the
special spellings accepted by CPython. -/
def parseSigned (cs : List Char) : Option PyFloat :=
  if cs = ("inf").data ∨ cs = ("infinity").data then some PyFloat.inf
  else if cs = ("nan").data then some PyFloat.nan
  else Option.map PyFloat.finite (parseDecimal cs)

/-- Model of CPython's `float(str)`: strip surrounding whitespace, handle an
optional sign, then accept `inf`/`infinity`/`nan` (case-insensitively) or a
plain decimal literal; anything else raises `ValueError` (here: `none`). -/
def parseFloat (s : String) : Option PyFloat :=
  match s.trim.toLower.data with
  | [] => none
  | c :: cs =>
      if c = ('+') then parseSigned cs
      else if c = ('-') then Option.map PyFloat.neg (parseSigned cs)
      else parseSigned (c :: cs)

/-- Model of CPython's `float(x)` on a dynamically typed value: numbers and
booleans convert directly, strings are parsed, `None` raises `TypeError`
(here: `none`). -/
def toFloat : Value → Option PyFloat
  | Value.vInt n => some (PyFloat.finite (n : ℚ))
  | Value.vFloat f => some f
  | Value.vBool b => some (PyFloat.finite (if b then 1 else 0))
  | Value.vStr s => parseFloat s
  | Value.vNone => none

/-- Function `pick_number(data, keys, default)` (hud_renderer.py lines 135-145): try
each key in order; skip keys that are absent or whose value does not convert
to a float; return the first converted value that is not NaN; otherwise the
caller-supplied default.  Note that the source filters only NaN
(`math.isnan`), not infinities. -/
def pick_number (data : List (String × Value)) : List String → Option PyFloat → Option PyFloat
  | [], default => default
  | k :: ks, default =>
      match List.lookup k data with
      | none => pick_number data ks default
      | some v =>
          match toFloat v with
          | none => pick_number data ks default
          | some f => if f.isnan then pick_number data ks default else some f

/-- An alias key contributes nothing to `pick_number`: it is absent from the
record, or its value does not convert to a float, or it converts to NaN
(which line 141 filters out). -/
def keySkipped (data : List (String × Value)) (k : String) : Prop :=
  match List.lookup k data with
  | none => True
  | some v =>
      match toFloat v with
      | none => True
      | some f => f.isnan = true

/-- Model of Python `int(q)` on a finite float: truncation toward zero
(floor for nonnegative values, ceiling for negative ones). -/
def truncInt (q : ℚ) : ℤ := if 0 ≤ q then ⌊q⌋ else ⌈q⌉

/-- The fixed numeric gear table `['P', 'D', 'R', 'N']`
(hud_renderer.py line 168). -/
def gearMapping : List String := [("P"), ("D"), ("R"), ("N")]

/-- The string alias table for gears (hud_renderer.py lines 174-187). -/
def gearLookup : List (String × String) :=
  [(("PARK"), ("P")), (("GEAR_PARK"), ("P")), (("P"), ("P")),
   (("DRIVE"), ("D")), (("GEAR_DRIVE"), ("D")), (("D"), ("D")),
   (("REVERSE"), ("R")), (("GEAR_REVERSE"), ("R")), (("R"), ("R")),
   (("NEUTRAL"), ("N")), (("GEAR_NEUTRAL"), ("N")), (("N"), ("N"))]

/-- Function `normalize_gear(raw)` (hud_renderer.py lines 162-190).  `None` maps to
`'P'`.  A numeric value (Python also routes `bool` here, since `bool` is an
`int` subclass) is converted with `int(...)` and looked up in `gearMapping`
when the index is in range; an out-of-range index falls through to the final
`return '?'`.  `int(...)` of a non-finite float raises, modelled as `none`.
A string is stripped, upper-cased and resolved through `gearLookup`, with the
first character (or `'?'` for the empty string) as fallback. -/
def normalize_gear : Value → Option String
  | Value.vNone => some (("P"))
  | Value.vInt n =>
      if 0 ≤ n ∧ n < 4 then some (gearMapping.getD n.toNat (("?"))) else some (("?"))
  | Value.vBool b =>
      some (gearMapping.getD (if b then 1 else 0) (("?")))
  | Value.vFloat f =>
      match f with
      | PyFloat.finite q =>
          if 0 ≤ truncInt q ∧ truncInt q < 4 then
            some (gearMapping.getD (truncInt q).toNat (("?")))
          else some (("?"))
      | _ => none
  | Value.vStr s =>
      let gear_str := s.trim.toUpper
      match List.lookup gear_str gearLookup with
      | some v => some v
      | none => some (if gear_str = ("") then ("?") else gear_str.take 1)

/-- Function `clamp(value, min_value, max_value)` (hud_renderer.py lines 87-88). -/
def clamp {α : Type} [LinearOrder α] (value min_value max_value : α) : α :=
  max min_value (min max_value value)

/-- The speed value computed in `create_hud_frame` (hud_renderer.py lines
585-587): meters/second times `2.23694` (mph), times `1.60934` more when the
unit system is km/h. -/
def speedFromMps (speed_mps : ℚ) (use_mph : Bool) : ℚ :=
  let speed_mph := speed_mps * 2.23694
  if use_mph then speed_mph else speed_mph * 1.60934

/-- The rendered speed text `f"{int(speed)}"` (hud_renderer.py line 365). -/
def speedText (speed : ℚ) : String := toString (truncInt speed)

/-- The throttle normalization in `create_hud_frame` (hud_renderer.py lines
593-595): a raw value at most `1.5` is first scaled by `100`; the result is
divided by `100` and clamped to `[0, 1]`. -/
def throttleNormalize (throttle_raw : ℚ) : ℚ :=
  let scaled := if throttle_raw ≤ 1.5 then throttle_raw * 100 else throttle_raw
  clamp (scaled / 100) 0 1

/-- Left-pad a digit string with zeros to width 5 (helper for the `%.5f`
format model). -/
def padZeros5 (s : String) : String :=
  String.mk (List.replicate (5 - s.length) ('0')) ++ s

/-- Print a five-decimal fixed-point string from the value already scaled by
`10^5` and rounded to an integer (helper for the `%.5f` format model). -/
def formatScaled5 (n : ℤ) : String :=
  let m : ℕ := n.natAbs
  let core := toString (m / 100000) ++ (".": String) ++ padZeros5 (toString (m % 100000))
  if n < 0 then ("-") ++ core else core

/-- Model of Python `f"{x:.5f}"` on a finite float: round the value scaled by
`10^5` to an integer and print with five decimal places.  CPython breaks
exact ties by round-half-even on the underlying double; this model rounds
ties up.  The two agree on every non-tie value, in particular on every input
appearing in this development. -/
def formatFixed5 (q : ℚ) : String := formatScaled5 (round (q * 100000))

/-- Model of Python `f"{x:.5f}"` on an arbitrary float: non-finite values
print as `inf`, `-inf`, `nan`. -/
def formatPy5 : PyFloat → String
  | PyFloat.finite q => formatFixed5 q
  | PyFloat.inf => ("inf")
  | PyFloat.neginf => ("-inf")
  | PyFloat.nan => ("nan")

/-- GPS source selection in `draw_location_overlay` (hud_renderer.py lines
487-496): the live SEI pair is replaced by the fallback pair when either live
coordinate is missing or both are exactly zero. -/
def resolveGps (latitude longitude fallback_lat fallback_lon : Option PyFloat) :
    Option PyFloat × Option PyFloat :=
  if latitude = none ∨ longitude = none ∨
      (latitude = some (PyFloat.finite 0) ∧ longitude = some (PyFloat.finite 0)) then
    (fallback_lat, fallback_lon)
  else (latitude, longitude)

/-- Location-string composition in `draw_location_overlay` (hud_renderer.py
lines 487-524): resolve the GPS source, collect the optional (truthy) static
label, append the formatted coordinate pair when one is resolved and not both
zero — parenthesized exactly when a label part is already present — and join
the parts with a space.  An empty part list means nothing is rendered
(`none`). -/
def locationOverlayText (location_text : Option String)
    (latitude longitude fallback_lat fallback_lon : Option PyFloat) : Option String :=
  let gps := resolveGps latitude longitude fallback_lat fallback_lon
  let parts : List String :=
    match location_text with
    | some s => if s = ("") then [] else [s]
    | none => []
  let parts2 : List String :=
    match gps.1, gps.2 with
    | some gps_lat, some gps_lon =>
        if gps_lat = PyFloat.finite 0 ∧ gps_lon = PyFloat.finite 0 then parts
        else
          let gps_text := formatPy5 gps_lat ++ (", ") ++ formatPy5 gps_lon
          if parts = [] then parts ++ [gps_text] else parts ++ [("(") ++ gps_text ++ (")")]
    | _, _ => parts
  if parts2 = [] then none else some (String.intercalate (" ") parts2)

/-- One HUD element drawn by `create_hud_frame`; the payload-free tags stand
for the corresponding `draw_*` calls, in source order. -/
inductive HudElement where
  | locationOverlay (text : String)
  | speedBlock
  | blinkerLeft
  | gearChip
  | brakeChip
  | wheelChip
  | throttleChip
  | blinkerRight
deriving DecidableEq, Repr

/-- The sequence of HUD elements drawn by `create_hud_frame` (hud_renderer.py
lines 552-643): live GPS is extracted from the telemetry record (absent when
the record is `None`); the location overlay is drawn first when enabled and
its text resolves; when the record is `None` the function returns right after
the overlay, otherwise the speed block and the six chips are drawn in source
order (speed block, then left group blinker/gear/brake, then right group
wheel/throttle/blinker). -/
def createHudElements (telemetry : Option (List (String × Value))) (use_mph : Bool)
    (enable_location_overlay : Bool) (location_text : Option String)
    (fallback_lat fallback_lon : Option PyFloat) : List HudElement :=
  let latitude := match telemetry with
    | some t => pick_number t [("latitude"), ("latitudeDeg"), ("latitude_deg")] none
    | none => none
  let longitude := match telemetry with
    | some t => pick_number t [("longitude"), ("longitudeDeg"), ("longitude_deg")] none
    | none => none
  let locElems : List HudElement :=
    if enable_location_overlay then
      match locationOverlayText location_text latitude longitude fallback_lat fallback_lon with
      | some t => [HudElement.locationOverlay t]
      | none => []
    else []
  match telemetry with
  | none => locElems
  | some _ =>
      locElems ++
        [HudElement.speedBlock, HudElement.blinkerLeft, HudElement.gearChip,
         HudElement.brakeChip, HudElement.wheelChip, HudElement.throttleChip,
         HudElement.blinkerRight]

/-- Steering clamp bound `MAX_STEER_DEG = 540` (hud_renderer.py line 38). -/
noncomputable def MAX_STEER_DEG : ℝ := 540

/-- The per-sequence smoother state of `class HudRenderState`
(hud_renderer.py lines 97-133).  Python floats are modelled by real numbers
here because the update uses `math.exp` and `math.cos`. -/
structure HudRenderState where
  frame_rate : ℝ
  frame_dt_ms : ℝ
  elapsed_ms : ℝ
  steer_initialized : Bool
  steer_target_deg : ℝ
  steer_display_deg : ℝ
  last_target_change_ms : ℝ

/-- Constructor `HudRenderState.__init__(frame_rate)` (hud_renderer.py lines 98-106):
a falsy or non-positive frame rate is replaced by `30.0`; the per-frame time
step is `1000 / safe_rate` milliseconds; the clock and all steering fields
start at zero with the steering sub-state uninitialized. -/
noncomputable def HudRenderState.initState (frame_rate : ℝ) : HudRenderState :=
  let safe_rate := if frame_rate ≠ 0 ∧ frame_rate > 0 then frame_rate else 30
  { frame_rate := safe_rate
    frame_dt_ms := 1000 / safe_rate
    elapsed_ms := 0
    steer_initialized := false
    steer_target_deg := 0
    steer_display_deg := 0
    last_target_change_ms := 0 }

/-- Method `HudRenderState.advance()` (hud_renderer.py lines 108-109). -/
noncomputable def HudRenderState.advance (s : HudRenderState) : HudRenderState :=
  { s with elapsed_ms := s.elapsed_ms + s.frame_dt_ms }

/-- Method `HudRenderState.blink_pulse()` (hud_renderer.py lines 111-113): a raised
cosine of the phase `((elapsed_ms / 1000) + 0.5) mod 1` (Python float `%`
with a positive modulus agrees with `Int.fract`). -/
noncomputable def HudRenderState.blink_pulse (s : HudRenderState) : ℝ :=
  let phase := Int.fract (s.elapsed_ms / 1000 + 0.5)
  0.5 * (1 - Real.cos (2 * Real.pi * phase))

/-- Method `HudRenderState.smooth_steer(target_deg)` (hud_renderer.py lines
115-133), as a function from the pre-call state to the post-call state and
returned display angle.  The target is clamped to `±MAX_STEER_DEG`; the first
call snaps the stored target, the display and the change timestamp; a later
call resets the stored target and timestamp only when the clamped target
differs, then applies exponential smoothing with factor
`1 - exp(-frame_dt_ms / 110)` and finally snaps the display onto the target
when more than `500` ms have elapsed since the last target change. -/
noncomputable def HudRenderState.smooth_steer (s : HudRenderState) (target_deg : ℝ) :
    HudRenderState × ℝ :=
  let target := clamp target_deg (-MAX_STEER_DEG) MAX_STEER_DEG
  if s.steer_initialized = false then
    let s' := { s with steer_initialized := true
                       steer_target_deg := target
                       steer_display_deg := target
                       last_target_change_ms := s.elapsed_ms }
    (s', s'.steer_display_deg)
  else
    let s1 := if target ≠ s.steer_target_deg then
        { s with steer_target_deg := target, last_target_change_ms := s.elapsed_ms }
      else s
    let smoothing : ℝ := if s.frame_dt_ms > 0 then 1 - Real.exp (-s.frame_dt_ms / 110) else 1
    let s2 := { s1 with steer_display_deg :=
        s1.steer_display_deg + (s1.steer_target_deg - s1.steer_display_deg) * smoothing }
    let s3 := if s2.elapsed_ms - s2.last_target_change_ms > 500 then
        { s2 with steer_display_deg := s2.steer_target_deg }
      else s2
    (s3, s3.steer_display_deg)

/-- The per-frame call pattern of `main` / `create_hud_frame` with a constant
steering target: each frame advances the clock once and then calls
`smooth_steer` with the same target. -/
noncomputable def iterSmooth (s : HudRenderState) (t : ℝ) : ℕ → HudRenderState
  | 0 => s
  | n + 1 => ((iterSmooth s t n).advance.smooth_steer t).1

/-- One call into the smoother: either the per-frame clock advance or a
`smooth_steer` invocation with an arbitrary target. -/
inductive SmootherCall where
  | advanceClock
  | steer (t : ℝ)

/-- Apply one smoother call to a state. -/
noncomputable def applyCall (s : HudRenderState) : SmootherCall → HudRenderState
  | SmootherCall.advanceClock => s.advance
  | SmootherCall.steer t => (s.smooth_steer t).1

/-- Run a sequence of smoother calls from a state. -/
noncomputable def runCalls (s : HudRenderState) (cs : List SmootherCall) : HudRenderState :=
  cs.foldl applyCall s

/-- Both steering fields of the smoother state lie within the clamp range. -/
def SteerInRange (s : HudRenderState) : Prop :=
  |s.steer_target_deg| ≤ MAX_STEER_DEG ∧ |s.steer_display_deg| ≤ MAX_STEER_DEG

/-- Recognizer for the location-overlay element. -/
def isLocationOverlay : HudElement → Bool
  | HudElement.locationOverlay _ => true
  | _ => false

/-- A concrete initialized smoother state (30 fps, all steering fields at
zero), used to instantiate theorems with hypotheses. -/
noncomputable def sampleState : HudRenderState :=
  { frame_rate := 30
    frame_dt_ms := 1000 / 30
    elapsed_ms := 0
    steer_initialized := true
    steer_target_deg := 0
    steer_display_deg := 0
    last_target_change_ms := 0 }

/-- The clamp to `±MAX_STEER_DEG` always lands inside the range. -/
lemma abs_clamp_le (x : ℝ) : |clamp x (-MAX_STEER_DEG) MAX_STEER_DEG| ≤ MAX_STEER_DEG := by
  rw [abs_le]
  unfold clamp
  exact ⟨le_max_left _ _, max_le (by norm_num [MAX_STEER_DEG]) (min_le_left _ _)⟩

/-- The exponential smoothing factor is nonnegative for a positive time
step. -/
lemma exp_smoothing_nonneg {dt : ℝ} (h : 0 < dt) : 0 ≤ 1 - Real.exp (-dt / 110) := by
  have h1 : Real.exp (-dt / 110) ≤ Real.exp 0 := by
    apply Real.exp_le_exp.mpr
    have : (0:ℝ) < dt / 110 := div_pos h (by norm_num)
    linarith
  rw [Real.exp_zero] at h1
  linarith

/-- The exponential smoothing factor never exceeds one. -/
lemma exp_smoothing_le_one (dt : ℝ) : 1 - Real.exp (-dt / 110) ≤ 1 := by
  have := Real.exp_pos (-dt / 110)
  linarith

/-- A convex step from `d` toward `T` stays inside any symmetric bound
containing both endpoints. -/
lemma convex_abs_le {d T a C : ℝ} (hd : |d| ≤ C) (hT : |T| ≤ C)
    (h0 : 0 ≤ a) (h1 : a ≤ 1) : |d + (T - d) * a| ≤ C := by
  rw [abs_le] at hd hT ⊢
  constructor
  · nlinarith [mul_nonneg (show (0:ℝ) ≤ d + C by linarith)
        (show (0:ℝ) ≤ 1 - a by linarith),
      mul_nonneg (show (0:ℝ) ≤ T + C by linarith) h0]
  · nlinarith [mul_nonneg (show (0:ℝ) ≤ C - d by linarith)
        (show (0:ℝ) ≤ 1 - a by linarith),
      mul_nonneg (show (0:ℝ) ≤ C - T by linarith) h0]

/-- After any `smooth_steer` call the steering sub-state is initialized, the
stored target is the clamped argument, and clock and time step are
untouched. -/
lemma smooth_steer_fst_fields (s : HudRenderState) (t : ℝ) :
    ((s.smooth_steer t).1).steer_initialized = true ∧
    ((s.smooth_steer t).1).steer_target_deg = clamp t (-MAX_STEER_DEG) MAX_STEER_DEG ∧
    ((s.smooth_steer t).1).elapsed_ms = s.elapsed_ms ∧
    ((s.smooth_steer t).1).frame_dt_ms = s.frame_dt_ms := by
  simp only [HudRenderState.smooth_steer]
  split_ifs with h1 h2 h3 <;> simp_all

/-- The value returned by `smooth_steer` is the display angle of the updated
state. -/
lemma smooth_steer_snd (s : HudRenderState) (t : ℝ) :
    (s.smooth_steer t).2 = ((s.smooth_steer t).1).steer_display_deg := by
  simp only [HudRenderState.smooth_steer]
  split_ifs <;> rfl

/-- One `smooth_steer` call keeps both steering fields inside the clamp
range. -/
lemma smooth_steer_preserves (s : HudRenderState) (t : ℝ) (h : SteerInRange s) :
    SteerInRange ((s.smooth_steer t).1) := by
  obtain ⟨hT, hD⟩ := h
  have hc := abs_clamp_le t
  simp only [HudRenderState.smooth_steer]
  split_ifs <;> dsimp only <;>
    refine ⟨?_, ?_⟩ <;>
    first
      | exact hc
      | exact hT
      | exact hD
      | exact convex_abs_le hD hc (exp_smoothing_nonneg (by assumption)) (exp_smoothing_le_one _)
      | exact convex_abs_le hD hc (by norm_num) (by norm_num)
      | exact convex_abs_le hD hT (exp_smoothing_nonneg (by assumption)) (exp_smoothing_le_one _)
      | exact convex_abs_le hD hT (by norm_num) (by norm_num)

/-- When the steering sub-state is initialized, the stored target already
equals the clamped argument, and more than 500 ms of clock time have passed
since the last recorded target change, `smooth_steer` returns exactly the
clamped target. -/
lemma smooth_steer_snap_value (S : HudRenderState) (t : ℝ)
    (hinit : S.steer_initialized = true)
    (htar : S.steer_target_deg = clamp t (-MAX_STEER_DEG) MAX_STEER_DEG)
    (h500 : S.elapsed_ms - S.last_target_change_ms > 500) :
    (S.smooth_steer t).2 = clamp t (-MAX_STEER_DEG) MAX_STEER_DEG := by
  simp only [HudRenderState.smooth_steer]
  rw [← htar]
  have hini : ¬(S.steer_initialized = false) := by simp [hinit]
  rw [if_neg hini]
  have hne : ¬(S.steer_target_deg ≠ S.steer_target_deg) := by simp
  rw [if_neg hne]
  dsimp only
  rw [if_pos h500]

/-- The `advance` call changes only the clock. -/
lemma advance_fields (s : HudRenderState) :
    (s.advance).steer_initialized = s.steer_initialized ∧
    (s.advance).steer_target_deg = s.steer_target_deg ∧
    (s.advance).steer_display_deg = s.steer_display_deg ∧
    (s.advance).last_target_change_ms = s.last_target_change_ms ∧
    (s.advance).elapsed_ms = s.elapsed_ms + s.frame_dt_ms := by
  simp [HudRenderState.advance]

/-- Every call of the smoother keeps the steering fields inside the clamp
range. -/
lemma applyCall_preserves (s : HudRenderState) (c : SmootherCall) (h : SteerInRange s) :
    SteerInRange (applyCall s c) := by
  cases c with
  | advanceClock =>
      obtain ⟨hT, hD⟩ := h
      exact ⟨hT, hD⟩
  | steer t => exact smooth_steer_preserves s t h

/-- Running any sequence of smoother calls keeps the steering fields inside
the clamp range. -/
lemma runCalls_preserves (cs : List SmootherCall) (s : HudRenderState) (h : SteerInRange s) :
    SteerInRange (runCalls s cs) := by
  induction cs generalizing s with
  | nil => exact h
  | cons c cs ih =>
      rw [runCalls, List.foldl_cons]
      exact ih (applyCall s c) (applyCall_preserves s c h)

/-- The freshly constructed state is inside the clamp range. -/
lemma initState_inRange (fr : ℝ) : SteerInRange (HudRenderState.initState fr) := by
  constructor <;>
    simp [HudRenderState.initState, MAX_STEER_DEG]

/-- The rendered speed text for 10 m/s in km/h mode: the exact product
`10 × 2.23694 × 1.60934 = 35.999970196` truncates to `35`. -/
lemma speedText_ten_kmh : speedText (speedFromMps 10 false) = ("35") := by
  have ht : truncInt (speedFromMps 10 false) = 35 := by
    rw [truncInt, if_pos (by norm_num [speedFromMps])]
    norm_num [speedFromMps]
  rw [speedText, ht]
  decide

/-- Claim C1 (counterexample): `normalize_gear` applied to the numeric gear
code `5`, whose integer conversion is outside the index range of the fixed
table, returns `'?'`, not `'P'` as the claim states. -/
theorem normalize_gear_out_of_range_counterexample :
    normalize_gear (Value.vInt 5) = some (("?")) ∧
    normalize_gear (Value.vInt 5) ≠ some (("P")) := by
  decide

/-- Claim C1 (amended): for every numeric (int or finite-float) gear value
whose integer conversion lies outside the index range of the fixed table
`[P, D, R, N]`, `normalize_gear` returns the unknown marker `'?'` (falling
through to the final `return '?'`), not `'P'`. -/
theorem normalize_gear_out_of_range_returns_unknown :
    (∀ n : ℤ, n < 0 ∨ 3 < n → normalize_gear (Value.vInt n) = some (("?"))) ∧
    (∀ q : ℚ, truncInt q < 0 ∨ 3 < truncInt q →
      normalize_gear (Value.vFloat (PyFloat.finite q)) = some (("?"))) := by
  constructor
  · intro n h
    simp only [normalize_gear]
    rw [if_neg (by omega)]
  · intro q h
    simp only [normalize_gear]
    rw [if_neg (by omega)]

/-- Witness for the amended claim C1 at the concrete out-of-range code `5`. -/
theorem normalize_gear_out_of_range_returns_unknown_witness :
    ((5:ℤ) < 0 ∨ 3 < (5:ℤ)) ∧ normalize_gear (Value.vInt 5) = some (("?")) :=
  ⟨Or.inr (by norm_num),
   normalize_gear_out_of_range_returns_unknown.1 5 (Or.inr (by norm_num))⟩

/-- Claim C2 (counterexample): `pick_number` returns positive infinity — a
non-finite float — from a record whose first alias holds `inf`, even though
the finite default `0` was supplied; the source filters only NaN. -/
theorem pick_number_nonfinite_counterexample :
    pick_number [(("a"), Value.vFloat PyFloat.inf)] [("a")] (some (PyFloat.finite 0)) =
      some PyFloat.inf ∧
    PyFloat.inf.isFinite = false ∧ (PyFloat.finite 0).isFinite = true := by
  decide

/-- Claim C2 (amended): for every telemetry record, alias list and default,
`pick_number` either returns the caller-supplied default — in which case
every listed alias was skipped (absent, non-convertible, or NaN) — or it
returns the non-NaN float converted from the first alias that is not
skipped, every alias of higher priority having been skipped; NaN never
escapes, but infinities are not filtered. -/
theorem pick_number_default_or_first_nonnan (data : List (String × Value))
    (keys : List String) (default : Option PyFloat) :
    (pick_number data keys default = default ∧ ∀ k ∈ keys, keySkipped data k) ∨
    ∃ pre k post, keys = pre ++ k :: post ∧ (∀ k' ∈ pre, keySkipped data k') ∧
      ∃ v f, List.lookup k data = some v ∧ toFloat v = some f ∧ f.isnan = false ∧
        pick_number data keys default = some f := by
  induction keys with
  | nil => exact Or.inl ⟨rfl, by simp⟩
  | cons k ks ih =>
      simp only [pick_number]
      cases hl : List.lookup k data with
      | none =>
          dsimp only
          have hsk : keySkipped data k := by simp [keySkipped, hl]
          rcases ih with ⟨h, hall⟩ | ⟨pre, k0, post, heq, hpre, v, f, hv, htf, hn, hres⟩
          · refine Or.inl ⟨h, ?_⟩
            intro k' hk'
            rcases List.mem_cons.mp hk' with rfl | hk'
            · exact hsk
            · exact hall k' hk'
          · refine Or.inr ⟨k :: pre, k0, post, by simp [heq], ?_, v, f, hv, htf, hn, hres⟩
            intro k' hk'
            rcases List.mem_cons.mp hk' with rfl | hk'
            · exact hsk
            · exact hpre k' hk'
      | some v =>
          dsimp only
          cases htf : toFloat v with
          | none =>
              dsimp only
              have hsk : keySkipped data k := by simp [keySkipped, hl, htf]
              rcases ih with ⟨h, hall⟩ | ⟨pre, k0, post, heq, hpre, v', f, hv', htf', hn, hres⟩
              · refine Or.inl ⟨h, ?_⟩
                intro k' hk'
                rcases List.mem_cons.mp hk' with rfl | hk'
                · exact hsk
                · exact hall k' hk'
              · refine Or.inr ⟨k :: pre, k0, post, by simp [heq], ?_, v', f, hv', htf', hn, hres⟩
                intro k' hk'
                rcases List.mem_cons.mp hk' with rfl | hk'
                · exact hsk
                · exact hpre k' hk'
          | some f =>
              dsimp only
              by_cases hn : f.isnan = true
              · rw [if_pos hn]
                have hsk : keySkipped data k := by simp [keySkipped, hl, htf, hn]
                rcases ih with ⟨h, hall⟩ | ⟨pre, k0, post, heq, hpre, v', g, hv', htf', hgn, hres⟩
                · refine Or.inl ⟨h, ?_⟩
                  intro k' hk'
                  rcases List.mem_cons.mp hk' with rfl | hk'
                  · exact hsk
                  · exact hall k' hk'
                · refine Or.inr ⟨k :: pre, k0, post, by simp [heq], ?_, v', g, hv', htf', hgn, hres⟩
                  intro k' hk'
                  rcases List.mem_cons.mp hk' with rfl | hk'
                  · exact hsk
                  · exact hpre k' hk'
              · rw [if_neg hn]
                exact Or.inr ⟨[], k, ks, rfl, by simp, v, f, hl, htf, by simpa using hn, rfl⟩

/-- Claim C3 (counterexample): with `vehicleSpeedMps = 10` and
`use_mph = false` the rendered speed text is not `"36"`: the conversion
product is `35.999970196` and `int(...)` truncates. -/
theorem speed_scenario_counterexample : speedText (speedFromMps 10 false) ≠ ("36") := by
  rw [speedText_ten_kmh]
  decide

/-- Claim C3 (amended): with `vehicleSpeedMps = 10` and `use_mph = false`
the displayed speed — `10 × 2.23694 × 1.60934` converted to its integer text
form — renders as the text `"35"`. -/
theorem speed_scenario_renders_35 : speedText (speedFromMps 10 false) = ("35") :=
  speedText_ten_kmh

/-- Claim C4: the throttle normalization maps raw `0.5` to fraction `0.5`,
raw `50` to `0.5` and raw `1.2` to `1.0`, and in general scales any raw
value at most `1.5` by `100` before dividing by `100` and clamping to
`[0, 1]`. -/
theorem throttle_normalization_rule :
    throttleNormalize (1/2) = 1/2 ∧ throttleNormalize 50 = 1/2 ∧
    throttleNormalize (6/5) = 1 ∧
    ∀ raw : ℚ, throttleNormalize raw = clamp ((if raw ≤ 1.5 then raw * 100 else raw) / 100) 0 1 := by
  refine ⟨by norm_num [throttleNormalize, clamp], by norm_num [throttleNormalize, clamp],
    by norm_num [throttleNormalize, clamp], fun raw => rfl⟩

/-- Claim C5: when `smooth_steer` is fed the same target on every frame —
with `advance()` called once before each call — then on every frame (after
the first) at which more than 500 ms of clock time have passed since the
last target change, the returned display angle is exactly the clamped
target. -/
theorem smooth_steer_constant_target_settles (s : HudRenderState) (t : ℝ) (n : ℕ)
    (hn : 1 ≤ n)
    (h500 : ((iterSmooth s t n).advance).elapsed_ms -
      (iterSmooth s t n).last_target_change_ms > 500) :
    (((iterSmooth s t n).advance).smooth_steer t).2 =
      clamp t (-MAX_STEER_DEG) MAX_STEER_DEG := by
  obtain ⟨m, rfl⟩ : ∃ m, n = m + 1 := ⟨n - 1, (Nat.succ_pred_eq_of_pos hn).symm⟩
  have hf := smooth_steer_fst_fields ((iterSmooth s t m).advance) t
  have hI : iterSmooth s t (m + 1) = (((iterSmooth s t m).advance).smooth_steer t).1 := rfl
  apply smooth_steer_snap_value
  · rw [show ((iterSmooth s t (m + 1)).advance).steer_initialized
        = (iterSmooth s t (m + 1)).steer_initialized from rfl, hI]
    exact hf.1
  · rw [show ((iterSmooth s t (m + 1)).advance).steer_target_deg
        = (iterSmooth s t (m + 1)).steer_target_deg from rfl, hI]
    exact hf.2.1
  · rw [show ((iterSmooth s t (m + 1)).advance).last_target_change_ms
        = (iterSmooth s t (m + 1)).last_target_change_ms from rfl]
    exact h500

/-- Frame step, clock and initialization flag of the state built by
`HudRenderState.initState 1`. -/
lemma initState_one_fields :
    (HudRenderState.initState 1).frame_dt_ms = 1000 ∧
    (HudRenderState.initState 1).elapsed_ms = 0 ∧
    (HudRenderState.initState 1).steer_initialized = false := by
  refine ⟨?_, rfl, rfl⟩
  simp only [HudRenderState.initState]
  rw [if_pos (by norm_num : (1:ℝ) ≠ 0 ∧ (1:ℝ) > 0)]
  norm_num

/-- Witness for claim C5: one frame per second, constant target `100`; at
the second call, 1000 ms have passed since the target change recorded by the
first call, and the returned display angle equals the clamped target. -/
theorem smooth_steer_constant_target_settles_witness :
    (((iterSmooth (HudRenderState.initState 1) 100 1).advance).elapsed_ms -
      (iterSmooth (HudRenderState.initState 1) 100 1).last_target_change_ms > 500) ∧
    (((iterSmooth (HudRenderState.initState 1) 100 1).advance).smooth_steer 100).2 =
      clamp 100 (-MAX_STEER_DEG) MAX_STEER_DEG := by
  obtain ⟨hdt, he, hini⟩ := initState_one_fields
  have h1 : iterSmooth (HudRenderState.initState 1) 100 1 =
      (((HudRenderState.initState 1).advance).smooth_steer 100).1 := rfl
  have hA : ((HudRenderState.initState 1).advance).steer_initialized = false := hini
  have h500 : ((iterSmooth (HudRenderState.initState 1) 100 1).advance).elapsed_ms -
      (iterSmooth (HudRenderState.initState 1) 100 1).last_target_change_ms > 500 := by
    rw [show ((iterSmooth (HudRenderState.initState 1) 100 1).advance).elapsed_ms
        = (iterSmooth (HudRenderState.initState 1) 100 1).elapsed_ms +
          (iterSmooth (HudRenderState.initState 1) 100 1).frame_dt_ms from rfl, h1]
    simp only [HudRenderState.smooth_steer, hA, HudRenderState.advance]
    rw [if_pos hini]
    dsimp only
    rw [hdt, he]
    norm_num
  exact ⟨h500, smooth_steer_constant_target_settles _ _ _ (le_refl 1) h500⟩

/-- Claim C6: on an initialized smoother state, a `smooth_steer` call whose
clamped target equals the currently stored target leaves
`last_target_change_ms` unchanged. -/
theorem smooth_steer_same_target_keeps_last_change (s : HudRenderState) (t : ℝ)
    (hinit : s.steer_initialized = true)
    (heq : clamp t (-MAX_STEER_DEG) MAX_STEER_DEG = s.steer_target_deg) :
    ((s.smooth_steer t).1).last_target_change_ms = s.last_target_change_ms := by
  simp only [HudRenderState.smooth_steer]
  rw [heq]
  have hini : ¬(s.steer_initialized = false) := by simp [hinit]
  rw [if_neg hini]
  have hne : ¬(s.steer_target_deg ≠ s.steer_target_deg) := by simp
  rw [if_neg hne]
  dsimp only
  split_ifs <;> rfl

/-- Witness for claim C6 on a concrete initialized state with stored target
`0` and a repeated target `0`. -/
theorem smooth_steer_same_target_keeps_last_change_witness :
    sampleState.steer_initialized = true ∧
    clamp (0:ℝ) (-MAX_STEER_DEG) MAX_STEER_DEG = sampleState.steer_target_deg ∧
    ((sampleState.smooth_steer 0).1).last_target_change_ms =
      sampleState.last_target_change_ms := by
  have h1 : sampleState.steer_initialized = true := rfl
  have h2 : clamp (0:ℝ) (-MAX_STEER_DEG) MAX_STEER_DEG = sampleState.steer_target_deg := by
    show max (-MAX_STEER_DEG) (min MAX_STEER_DEG 0) = (0:ℝ)
    rw [min_eq_right (by norm_num [MAX_STEER_DEG]), max_eq_right (by norm_num [MAX_STEER_DEG])]
  exact ⟨h1, h2, smooth_steer_same_target_keeps_last_change sampleState 0 h1 h2⟩

/-- Claim C7: `blink_pulse` always lies in `[0, 1]` and is periodic with
period exactly 1000 ms of elapsed time. -/
theorem blink_pulse_range_and_period (s : HudRenderState) :
    0 ≤ s.blink_pulse ∧ s.blink_pulse ≤ 1 ∧
    HudRenderState.blink_pulse { s with elapsed_ms := s.elapsed_ms + 1000 } = s.blink_pulse := by
  refine ⟨?_, ?_, ?_⟩
  · have h := Real.cos_le_one (2 * Real.pi * Int.fract (s.elapsed_ms / 1000 + 0.5))
    simp only [HudRenderState.blink_pulse]
    linarith
  · have h := Real.neg_one_le_cos (2 * Real.pi * Int.fract (s.elapsed_ms / 1000 + 0.5))
    simp only [HudRenderState.blink_pulse]
    linarith
  · simp only [HudRenderState.blink_pulse]
    have h : (s.elapsed_ms + 1000) / 1000 + 0.5 = (s.elapsed_ms / 1000 + 0.5) + ((1:ℤ):ℝ) := by
      push_cast
      ring
    rw [h, Int.fract_add_int]

/-- Five-decimal formatting of the fallback latitude `37.0`. -/
lemma formatPy5_lat37 : formatPy5 (PyFloat.finite 37) = ("37.00000") := by
  rw [formatPy5, formatFixed5]
  rw [show round ((37:ℚ) * 100000) = 3700000 from by rw [round_eq]; norm_num]
  decide

/-- Five-decimal formatting of the fallback longitude `-122.0`. -/
lemma formatPy5_lon122 : formatPy5 (PyFloat.finite (-122)) = ("-122.00000") := by
  rw [formatPy5, formatFixed5]
  rw [show round ((-122:ℚ) * 100000) = -12200000 from by rw [round_eq]; norm_num]
  decide

/-- The overlay text for the fallback scenario: no label, no live GPS,
fallback `(37, -122)`. -/
lemma locationText_fallback_scenario :
    locationOverlayText none none none (some (PyFloat.finite 37)) (some (PyFloat.finite (-122))) =
      some ("37.00000, -122.00000") := by
  simp only [locationOverlayText, resolveGps]
  norm_num
  rw [formatPy5_lat37, formatPy5_lon122]
  decide

/-- Claim C8: the location overlay uses the live per-frame coordinate pair
exactly when both coordinates are present and not both zero, and otherwise
the configured fallback pair; and in the scenario with no label, live GPS
absent and fallback `(37.0, -122.0)` the composed overlay text is exactly
`"37.00000, -122.00000"`, unparenthesized. -/
theorem location_gps_priority_and_scenario :
    (∀ latitude longitude fallback_lat fallback_lon : Option PyFloat,
        latitude ≠ none → longitude ≠ none →
        ¬(latitude = some (PyFloat.finite 0) ∧ longitude = some (PyFloat.finite 0)) →
        resolveGps latitude longitude fallback_lat fallback_lon = (latitude, longitude)) ∧
    (∀ latitude longitude fallback_lat fallback_lon : Option PyFloat,
        (latitude = none ∨ longitude = none ∨
          (latitude = some (PyFloat.finite 0) ∧ longitude = some (PyFloat.finite 0))) →
        resolveGps latitude longitude fallback_lat fallback_lon = (fallback_lat, fallback_lon)) ∧
    locationOverlayText none none none (some (PyFloat.finite 37)) (some (PyFloat.finite (-122))) =
      some ("37.00000, -122.00000") := by
  refine ⟨?_, ?_, locationText_fallback_scenario⟩
  · intro la lo fa fo h1 h2 h3
    have hcond : ¬(la = none ∨ lo = none ∨
        (la = some (PyFloat.finite 0) ∧ lo = some (PyFloat.finite 0))) := by
      tauto
    rw [resolveGps, if_neg hcond]
  · intro la lo fa fo h
    rw [resolveGps, if_pos h]

/-- Witness for claim C8: a live pair `(1, 2)` is present and nonzero, so
`resolveGps` keeps it and ignores the (absent) fallback. -/
theorem location_gps_priority_and_scenario_witness :
    ((some (PyFloat.finite 1) : Option PyFloat) ≠ none) ∧
    ((some (PyFloat.finite 2) : Option PyFloat) ≠ none) ∧
    ¬((some (PyFloat.finite 1) : Option PyFloat) = some (PyFloat.finite 0) ∧
      (some (PyFloat.finite 2) : Option PyFloat) = some (PyFloat.finite 0)) ∧
    resolveGps (some (PyFloat.finite 1)) (some (PyFloat.finite 2)) none none =
      (some (PyFloat.finite 1), some (PyFloat.finite 2)) := by
  refine ⟨by decide, by decide, by decide, ?_⟩
  exact location_gps_priority_and_scenario.1 _ _ _ _ (by decide) (by decide) (by decide)

/-- Claim C9: with the telemetry record absent, `create_hud_frame` draws no
HUD element except possibly the location overlay, which is still composed
from the static label and fallback GPS when the overlay is enabled; the
missing record is handled by an early return, not an error. -/
theorem create_hud_frame_missing_telemetry (use_mph enable_location_overlay : Bool)
    (location_text : Option String) (fallback_lat fallback_lon : Option PyFloat) :
    createHudElements none use_mph enable_location_overlay location_text
        fallback_lat fallback_lon =
      (if enable_location_overlay then
        Option.elim (locationOverlayText location_text none none fallback_lat fallback_lon)
          [] (fun txt => [HudElement.locationOverlay txt])
      else []) ∧
    (createHudElements none use_mph enable_location_overlay location_text
        fallback_lat fallback_lon).all isLocationOverlay = true := by
  cases enable_location_overlay with
  | false => simp [createHudElements]
  | true =>
      cases h : locationOverlayText location_text none none fallback_lat fallback_lon with
      | none => simp [createHudElements, h]
      | some txt => simp [createHudElements, h, isLocationOverlay]

/-- Claim C10: starting from a fresh `HudRenderState`, after any sequence of
`advance` and `smooth_steer` calls with arbitrary (possibly out-of-range)
targets, the stored steering target and the display angle both lie within
`[-540, 540]`, and so does the value returned by a further `smooth_steer`
call. -/
theorem steer_state_range_invariant (fr : ℝ) (cs : List SmootherCall) (t : ℝ) :
    SteerInRange (runCalls (HudRenderState.initState fr) cs) ∧
    |((runCalls (HudRenderState.initState fr) cs).smooth_steer t).2| ≤ MAX_STEER_DEG := by
  have hrun := runCalls_preserves cs _ (initState_inRange fr)
  refine ⟨hrun, ?_⟩
  rw [smooth_steer_snd]
  exact (smooth_steer_preserves _ t hrun).2
